import Mathlib

/-!
Verification development for the `rest_of_life` path tracer
(`src/rest_of_life/src/main.rs`, `src/rest_of_life/src/material.rs`).

Embedding conventions:
* `f32` scalars are embedded as exact rationals (`ℚ`); machine square roots
  (`nalgebra`'s `normalize`/`magnitude`, `f32::sqrt`) are abstracted as an
  explicit function parameter `s : ℚ → ℚ` where their numeric value matters.
* Where IEEE special values (NaN, ±∞) are load-bearing — the unguarded
  division in the integrator, the rendering of emission-free scenes, and
  image serialization — a dedicated scalar type `F32` with
  `nan`/`inf`/`neginf`/`fin` constructors models the IEEE operations
  exactly, and the integrator is additionally embedded over it (`colorF`)
  so that division-by-zero behavior is the program's, not exact
  arithmetic's.
* Randomness (`rand::thread_rng`) is embedded as an explicit stream
  `RNG := ℕ → ℚ` of uniform draws threaded through the stochastic calls.
* The modules `ray.rs`, `pdf.rs`, `hittable.rs`, `texture.rs` are not part of
  the sources at hand; their data and combinators are modelled from the spec
  (each such definition is marked `Modelled from the spec:`).  The integrator
  and the materials are translated line by line from the Rust sources.
-/

/-- 3-component vector of (exact) scalars, embedding `nalgebra::Vector3<f32>`. -/
structure Vec3 where
  x : ℚ
  y : ℚ
  z : ℚ
  deriving DecidableEq, Repr

namespace Vec3

/-- `Vector3::zeros()`. -/
def zero : Vec3 := ⟨0, 0, 0⟩

def add (a b : Vec3) : Vec3 := ⟨a.x + b.x, a.y + b.y, a.z + b.z⟩

def sub (a b : Vec3) : Vec3 := ⟨a.x - b.x, a.y - b.y, a.z - b.z⟩

def neg (a : Vec3) : Vec3 := ⟨-a.x, -a.y, -a.z⟩

/-- Scalar multiplication `c * v`. -/
def smul (c : ℚ) (a : Vec3) : Vec3 := ⟨c * a.x, c * a.y, c * a.z⟩

/-- Component-wise product: `a.zip_map(&b, |l, r| l * r)`. -/
def cmul (a b : Vec3) : Vec3 := ⟨a.x * b.x, a.y * b.y, a.z * b.z⟩

/-- Division of a vector by a scalar, `v / c` (component-wise). -/
def divs (a : Vec3) (c : ℚ) : Vec3 := ⟨a.x / c, a.y / c, a.z / c⟩

def dot (a b : Vec3) : ℚ := a.x * b.x + a.y * b.y + a.z * b.z

end Vec3

/-- Modelled from the spec: `ray.rs` is not among the sources.  §3: "Ray:
origin point, direction vector (not required to be unit length), a scalar
time value used for motion blur sampling.  Immutable once constructed." -/
structure Ray where
  origin : Vec3
  direction : Vec3
  time : ℚ
  deriving DecidableEq, Repr

/-- A stream of uniform random draws in `[0,1)`, modelling `rand::thread_rng`. -/
def RNG : Type := ℕ → ℚ

/-- Consuming one draw from the stream. -/
def RNG.next (g : RNG) : ℚ × RNG := (g 0, fun n => g (n + 1))

/-- Modelled from the spec: `texture.rs` is not among the sources.  §3:
"Texture: polymorphic ... returning a color given `(u, v, point)`." -/
def Texture : Type := ℚ → ℚ → Vec3 → Vec3

/-- Modelled from the spec: `pdf.rs` is not among the sources.  §3: "PDF ...
Exposes `generate() -> direction` (stochastic) and `value(direction) ->
density` (deterministic)." -/
structure PDF where
  generate : RNG → Vec3 × RNG
  value : Vec3 → ℚ

/-- Geometric part of a `HitRecord` (`t`, hit point, oriented normal, texture
coordinates); the material reference is kept alongside it in `HitRecord`
below, so that `Material` need not be mutually recursive with the record. -/
structure HitGeom where
  t : ℚ
  p : Vec3
  normal : Vec3
  u : ℚ
  v : ℚ

/-- `ScatterRecord` from `material.rs`: either a single deterministic
specular ray, or a sampling distribution, each with a color multiplier. -/
inductive ScatterRecord where
  | Specular (specular_ray : Ray) (attenuation : Vec3)
  | Scatter (pdf : PDF) (attenuation : Vec3)

/-- The `Material` trait from `material.rs`, as a record of its three
methods.  `scatter` threads the random stream (Metal and Dielectric draw
from `thread_rng` inside `scatter`).  The trait's default bodies are
`scatter = None`, `scattering_pdf = 1.0`, `emitted = zeros()`. -/
structure Material where
  scatter : Ray → HitGeom → RNG → Option ScatterRecord × RNG
  scattering_pdf : Ray → HitGeom → Ray → ℚ
  emitted : Ray → HitGeom → Vec3

/-- `HitRecord`: geometry of the hit plus the material at the hit point. -/
structure HitRecord where
  geom : HitGeom
  material : Material

/-- Modelled from the spec: `hittable.rs` is not among the sources.  §3: a
geometry object answers nearest-hit queries on `[t_min, t_max]`; §4.2: the
hittable PDF needs a direction sampler toward the shape (`random`) and a
solid-angle density from an origin along a direction (`pdf_value`). -/
structure Hittable where
  hit : Ray → ℚ → ℚ → Option HitRecord
  pdf_value : Vec3 → Vec3 → ℚ
  random : Vec3 → RNG → Vec3 × RNG

namespace PDF

/-- Modelled from the spec: `pdf.rs` is not among the sources.  §4.2
"Hittable PDF": `generate()` returns a direction from the origin toward a
sampled point of the shape; `value(d)` is the shape's solid-angle density
seen from the origin along `d`.  Embeds `PDF::hittable(shape, origin)`. -/
def hittable (shape : Hittable) (origin : Vec3) : PDF where
  generate := shape.random origin
  value := fun d => shape.pdf_value origin d

/-- Modelled from the spec: `pdf.rs` is not among the sources.  §4.2
"Mixture PDF": `generate()` picks one of the two children uniformly at
random and forwards; `value(d)` is the mean of the children's densities.
Embeds `PDF::mixture(p, q)`. -/
def mixture (p q : PDF) : PDF where
  generate := fun g =>
    let d := RNG.next g
    if d.1 < 1 / 2 then p.generate d.2 else q.generate d.2
  value := fun d => (p.value d + q.value d) / 2

end PDF

/-- `const MAX_DEPTH: i32 = 1000;` (`main.rs:31`). -/
def MAX_DEPTH : ℤ := 1000

/-- `f32::MAX` = (2 − 2⁻²³)·2¹²⁷, the upper end of the hit interval used by
`color`. -/
def F32_MAX : ℚ := 2 ^ 128 - 2 ^ 104

/-- The recursive integrator `color` (`main.rs:119-159`), translated line by
line; the random stream is threaded through `scatter` and the mixture PDF's
`generate` in source order.  Recursion is on the fuel `MAX_DEPTH - depth`,
exactly the source's guard `depth < MAX_DEPTH`. -/
def color (world light_shape : Hittable) (ray : Ray) (depth : ℤ) (rng : RNG) :
    Vec3 :=
  match world.hit ray (1 / 1000) F32_MAX with
  | some hit =>
    let emitted := hit.material.emitted ray hit.geom
    if h : depth < MAX_DEPTH then
      match hit.material.scatter ray hit.geom rng with
      | (some (ScatterRecord.Specular specular_ray attenuation), rng1) =>
        Vec3.cmul attenuation
          (color world light_shape specular_ray (depth + 1) rng1)
      | (some (ScatterRecord.Scatter pdf attenuation), rng1) =>
        let hittable_pdf := PDF.hittable light_shape hit.geom.p
        let pdf_fun := PDF.mixture hittable_pdf pdf
        let gen := pdf_fun.generate rng1
        let scattered := Ray.mk hit.geom.p gen.1 ray.time
        let pdf_val := pdf_fun.value scattered.direction
        let scattering_pdf := hit.material.scattering_pdf ray hit.geom scattered
        Vec3.add emitted
          (Vec3.divs
            (Vec3.cmul attenuation
              (Vec3.smul scattering_pdf
                (color world light_shape scattered (depth + 1) gen.2)))
            pdf_val)
      | (none, _) => emitted
    else emitted
  | none => Vec3.zero
termination_by (MAX_DEPTH - depth).toNat
decreasing_by
  · simp only [MAX_DEPTH] at *; omega
  · simp only [MAX_DEPTH] at *; omega

/-- Fuel-indexed restatement of `color`: recursion is structural on an
explicit fuel counter, with the same body otherwise.  `color` at depth `d`
coincides with `colorFuel` at fuel `(MAX_DEPTH - d).toNat`
(`color_eq_colorFuel` below), which bounds the recursion nesting of `color`
by the depth cap. -/
def colorFuel (world light_shape : Hittable) :
    ℕ → Ray → ℤ → RNG → Vec3
  | 0, ray, _depth, _rng =>
    (match world.hit ray (1 / 1000) F32_MAX with
     | some hit => hit.material.emitted ray hit.geom
     | none => Vec3.zero)
  | (fuel + 1), ray, depth, rng =>
    match world.hit ray (1 / 1000) F32_MAX with
    | some hit =>
      let emitted := hit.material.emitted ray hit.geom
      if depth < MAX_DEPTH then
        match hit.material.scatter ray hit.geom rng with
        | (some (ScatterRecord.Specular specular_ray attenuation), rng1) =>
          Vec3.cmul attenuation
            (colorFuel world light_shape fuel specular_ray (depth + 1) rng1)
        | (some (ScatterRecord.Scatter pdf attenuation), rng1) =>
          let pdf_fun := PDF.mixture (PDF.hittable light_shape hit.geom.p) pdf
          let gen := pdf_fun.generate rng1
          let scattered := Ray.mk hit.geom.p gen.1 ray.time
          Vec3.add emitted
            (Vec3.divs
              (Vec3.cmul attenuation
                (Vec3.smul (hit.material.scattering_pdf ray hit.geom scattered)
                  (colorFuel world light_shape fuel scattered (depth + 1)
                    gen.2)))
              (pdf_fun.value scattered.direction))
        | (none, _) => emitted
      else emitted
    | none => Vec3.zero

/-- `reflect` (`material.rs:20-22`): `v - 2.0 * v.dot(n) * n`. -/
def reflect (v n : Vec3) : Vec3 :=
  Vec3.sub v (Vec3.smul (2 * Vec3.dot v n) n)

/-- `nalgebra`'s `v.normalize()`: `v / |v|`, with the machine square root of
the squared magnitude abstracted as `s`. -/
def Vec3.normalize (s : ℚ → ℚ) (v : Vec3) : Vec3 :=
  Vec3.divs v (s (Vec3.dot v v))

/-- `refract` (`material.rs:24-34`): Snell refraction, `none` when the
discriminant is not positive.  `s` abstracts `f32::sqrt`. -/
def refract (s : ℚ → ℚ) (v n : Vec3) (ni_over_nt : ℚ) : Option Vec3 :=
  let uv := Vec3.normalize s v
  let dt := Vec3.dot uv n
  let discriminant := 1 - ni_over_nt ^ 2 * (1 - dt ^ 2)
  if 0 < discriminant then
    some (Vec3.sub (Vec3.smul ni_over_nt (Vec3.sub uv (Vec3.smul dt n)))
      (Vec3.smul (s discriminant) n))
  else none

/-- `schlick` (`material.rs:36-39`). -/
def schlick (cosine ref_idx : ℚ) : ℚ :=
  let r0 := ((1 - ref_idx) / (1 + ref_idx)) ^ 2
  r0 + (1 - r0) * (1 - cosine) ^ 5

/-- The `Metal` material's fields (`material.rs:91-95`). -/
structure Metal where
  albedo : Vec3
  fuzz : ℚ

/-- `Metal::new` (`material.rs:97-104`): stores
`if fuzz < 1.0 { fuzz } else { 1.0 }`. -/
def Metal.new (albedo : Vec3) (fuzz : ℚ) : Metal :=
  ⟨albedo, if fuzz < 1 then fuzz else 1⟩

/-- The `Dielectric` material's field (`material.rs:123-126`). -/
structure Dielectric where
  ref_idx : ℚ

/-- `Dielectric::scatter` (`material.rs:134-160`), with the machine square
root abstracted as `s` and the single `thread_rng().gen::<f32>()` draw made
an explicit argument `rand`; `sel` packs the `(outward_normal, ni_over_nt,
cosine)` triple.  The source's `gen() >= reflect_prob` test selecting
refraction is `schlick cosine ref_idx ≤ rand`. -/
def Dielectric.scatter (s : ℚ → ℚ) (m : Dielectric) (ray : Ray)
    (hit : HitGeom) (rand : ℚ) : Option ScatterRecord :=
  let attenuation : Vec3 := ⟨1, 1, 1⟩
  let sel :=
    if 0 < Vec3.dot ray.direction hit.normal then
      (Vec3.neg hit.normal, m.ref_idx,
        m.ref_idx * Vec3.dot ray.direction hit.normal /
          s (Vec3.dot ray.direction ray.direction))
    else
      (hit.normal, 1 / m.ref_idx,
        -(Vec3.dot ray.direction hit.normal) /
          s (Vec3.dot ray.direction ray.direction))
  match refract s ray.direction sel.1 sel.2.1 with
  | some refracted =>
    if schlick sel.2.2 m.ref_idx ≤ rand then
      some (ScatterRecord.Specular (Ray.mk hit.p refracted ray.time)
        attenuation)
    else
      some (ScatterRecord.Specular
        (Ray.mk hit.p (reflect ray.direction hit.normal) ray.time)
        attenuation)
  | none =>
    some (ScatterRecord.Specular
      (Ray.mk hit.p (reflect ray.direction hit.normal) ray.time)
      attenuation)

/-- `DiffuseLight` (`material.rs:162-181`) packaged as a `Material`:
`scatter` is the trait default (`None`), `scattering_pdf` the trait default
(`1.0`), and `emitted` returns the emission texture's value on the front
face (`normal · direction < 0`), else zero. -/
def DiffuseLight.material (emit : Texture) : Material where
  scatter := fun _ _ rng => (none, rng)
  scattering_pdf := fun _ _ _ => 1
  emitted := fun ray hit =>
    if Vec3.dot hit.normal ray.direction < 0 then emit hit.u hit.v hit.p
    else Vec3.zero

/-- IEEE-special-value model of `f32` for the claims where NaN/∞ behavior is
the point: a finite value is an exact rational, and the three special values
are explicit.  (ℚ has no signed zero; `0` plays the role of `+0.0`.) -/
inductive F32 where
  | nan
  | inf
  | neginf
  | fin (q : ℚ)
  deriving DecidableEq, Repr

namespace F32

def isNan : F32 → Bool
  | nan => true
  | _ => false

def isFinite : F32 → Bool
  | fin _ => true
  | _ => false

/-- The strict order on non-NaN values (`false` whenever either side is
NaN, as in IEEE comparisons). -/
def lt : F32 → F32 → Bool
  | nan, _ => false
  | _, nan => false
  | neginf, neginf => false
  | neginf, _ => true
  | _, neginf => false
  | inf, _ => false
  | fin _, inf => true
  | fin a, fin b => decide (a < b)

/-- IEEE addition on the model. -/
def add : F32 → F32 → F32
  | nan, _ => nan
  | _, nan => nan
  | inf, neginf => nan
  | neginf, inf => nan
  | inf, _ => inf
  | _, inf => inf
  | neginf, _ => neginf
  | _, neginf => neginf
  | fin a, fin b => fin (a + b)

/-- IEEE multiplication on the model. -/
def mul : F32 → F32 → F32
  | nan, _ => nan
  | _, nan => nan
  | inf, inf => inf
  | inf, neginf => neginf
  | neginf, inf => neginf
  | neginf, neginf => inf
  | inf, fin b => if b = 0 then nan else if 0 < b then inf else neginf
  | fin a, inf => if a = 0 then nan else if 0 < a then inf else neginf
  | neginf, fin b => if b = 0 then nan else if 0 < b then neginf else inf
  | fin a, neginf => if a = 0 then nan else if 0 < a then neginf else inf
  | fin a, fin b => fin (a * b)

/-- IEEE division on the model; a finite value divided by (positive) zero is
the appropriately signed infinity, and `0/0` is NaN. -/
def div : F32 → F32 → F32
  | nan, _ => nan
  | _, nan => nan
  | inf, inf => nan
  | inf, neginf => nan
  | neginf, inf => nan
  | neginf, neginf => nan
  | inf, fin b => if b < 0 then neginf else inf
  | neginf, fin b => if b < 0 then inf else neginf
  | fin _, inf => fin 0
  | fin _, neginf => fin 0
  | fin a, fin b =>
    if b = 0 then (if a = 0 then nan else if 0 < a then inf else neginf)
    else fin (a / b)

/-- IEEE square root on the model; the finite value is modelled by
`Rat.sqrt` (its exact value is irrelevant to the claims, its sign behavior
is what matters). -/
def sqrt : F32 → F32
  | nan => nan
  | inf => inf
  | neginf => nan
  | fin q => if q < 0 then nan else fin (Rat.sqrt q)

/-- Rust's `f32::max`: if one argument is NaN the other is returned. -/
def max (a b : F32) : F32 :=
  if a.isNan then b else if b.isNan then a else if lt a b then b else a

/-- Rust's `f32::min`: if one argument is NaN the other is returned. -/
def min (a b : F32) : F32 :=
  if a.isNan then b else if b.isNan then a else if lt b a then b else a

/-- Rust's saturating float-to-`u8` cast (`as u8`): NaN to 0, truncation
toward zero, clamping to `[0, 255]`. -/
def toU8 : F32 → ℕ
  | nan => 0
  | inf => 255
  | neginf => 0
  | fin q => if q ≤ 0 then 0 else if 255 ≤ q then 255 else q.floor.toNat

end F32

/-- One color component of the `Scatter`-branch return value of `color`
(`main.rs:145-150`) under the IEEE-special-value model:
`emitted + (attenuation * (scattering_pdf * incoming)) / pdf_val`. -/
def scatterComponentF (emitted attenuation scattering_pdf incoming
    pdf_val : F32) : F32 :=
  F32.add emitted
    (F32.div (F32.mul attenuation (F32.mul scattering_pdf incoming)) pdf_val)

/-- One serialized output channel (`main.rs:183`):
`(255.99 * (c / ns as f32).sqrt().max(0.0).min(1.0)) as u8`, over the
IEEE-special-value model of the accumulated channel sum `c`. -/
def serializeChannel (c : F32) (ns : ℚ) : ℕ :=
  F32.toU8
    (F32.mul (F32.fin (25599 / 100))
      (F32.min (F32.max (F32.sqrt (F32.div c (F32.fin ns))) (F32.fin 0))
        (F32.fin 1)))

/-- `Vector3<f32>` under the IEEE-special-value model: the componentwise
counterpart of `Vec3`, used where NaN/∞ propagation through the integrator
is the point. -/
structure VecF where
  x : F32
  y : F32
  z : F32
  deriving DecidableEq, Repr

namespace VecF

/-- `Vector3::zeros()` under the IEEE model. -/
def zero : VecF := ⟨F32.fin 0, F32.fin 0, F32.fin 0⟩

def add (a b : VecF) : VecF :=
  ⟨F32.add a.x b.x, F32.add a.y b.y, F32.add a.z b.z⟩

/-- Scalar multiplication `c * v` under the IEEE model. -/
def smul (c : F32) (a : VecF) : VecF :=
  ⟨F32.mul c a.x, F32.mul c a.y, F32.mul c a.z⟩

/-- Component-wise product (`zip_map(.., |l, r| l * r)`) under the IEEE
model. -/
def cmul (a b : VecF) : VecF :=
  ⟨F32.mul a.x b.x, F32.mul a.y b.y, F32.mul a.z b.z⟩

/-- Division by a scalar, `v / c`, under the IEEE model. -/
def divs (a : VecF) (c : F32) : VecF :=
  ⟨F32.div a.x c, F32.div a.y c, F32.div a.z c⟩

end VecF

/-- `Ray` with IEEE-model scalars (same shape as `Ray`). -/
structure RayF where
  origin : VecF
  direction : VecF
  time : F32

/-- `PDF` with IEEE-model scalars (same shape as `PDF`). -/
structure PDFF where
  generate : RNG → VecF × RNG
  value : VecF → F32

/-- Geometric part of a hit record with IEEE-model scalars. -/
structure HitGeomF where
  t : F32
  p : VecF
  normal : VecF
  u : F32
  v : F32

/-- `ScatterRecord` with IEEE-model scalars. -/
inductive ScatterRecordF where
  | Specular (specular_ray : RayF) (attenuation : VecF)
  | Scatter (pdf : PDFF) (attenuation : VecF)

/-- The `Material` trait with IEEE-model scalars. -/
structure MaterialF where
  scatter : RayF → HitGeomF → RNG → Option ScatterRecordF × RNG
  scattering_pdf : RayF → HitGeomF → RayF → F32
  emitted : RayF → HitGeomF → VecF

/-- `HitRecord` with IEEE-model scalars. -/
structure HitRecordF where
  geom : HitGeomF
  material : MaterialF

/-- The `Hittable` abstraction with IEEE-model scalars (spec-modelled like
`Hittable`, `hittable.rs` being absent from the sources). -/
structure HittableF where
  hit : RayF → F32 → F32 → Option HitRecordF
  pdf_value : VecF → VecF → F32
  random : VecF → RNG → VecF × RNG

/-- `PDF::hittable` over IEEE-model scalars (spec-modelled, §4.2). -/
def PDFF.hittable (shape : HittableF) (origin : VecF) : PDFF where
  generate := shape.random origin
  value := fun d => shape.pdf_value origin d

/-- `PDF::mixture` over IEEE-model scalars (spec-modelled, §4.2): the mean
of the children's densities, computed with IEEE addition and division. -/
def PDFF.mixture (p q : PDFF) : PDFF where
  generate := fun g =>
    let d := RNG.next g
    if d.1 < 1 / 2 then p.generate d.2 else q.generate d.2
  value := fun d => F32.div (F32.add (p.value d) (q.value d)) (F32.fin 2)

/-- The integrator `color` (`main.rs:119-159`) once more, with every scalar
under the IEEE-special-value model: identical branch structure to `color`,
but addition, multiplication and the division by `pdf_val` follow the IEEE
NaN/∞ rules instead of exact rational arithmetic. -/
def colorF (world light_shape : HittableF) (ray : RayF) (depth : ℤ)
    (rng : RNG) : VecF :=
  match world.hit ray (F32.fin (1 / 1000)) (F32.fin F32_MAX) with
  | some hit =>
    let emitted := hit.material.emitted ray hit.geom
    if h : depth < MAX_DEPTH then
      match hit.material.scatter ray hit.geom rng with
      | (some (ScatterRecordF.Specular specular_ray attenuation), rng1) =>
        VecF.cmul attenuation
          (colorF world light_shape specular_ray (depth + 1) rng1)
      | (some (ScatterRecordF.Scatter pdf attenuation), rng1) =>
        let hittable_pdf := PDFF.hittable light_shape hit.geom.p
        let pdf_fun := PDFF.mixture hittable_pdf pdf
        let gen := pdf_fun.generate rng1
        let scattered := RayF.mk hit.geom.p gen.1 ray.time
        let pdf_val := pdf_fun.value scattered.direction
        let scattering_pdf := hit.material.scattering_pdf ray hit.geom scattered
        VecF.add emitted
          (VecF.divs
            (VecF.cmul attenuation
              (VecF.smul scattering_pdf
                (colorF world light_shape scattered (depth + 1) gen.2)))
            pdf_val)
      | (none, _) => emitted
    else emitted
  | none => VecF.zero
termination_by (MAX_DEPTH - depth).toNat
decreasing_by
  · simp only [MAX_DEPTH] at *; omega
  · simp only [MAX_DEPTH] at *; omega

/-- A world is emission-free when every material any of its hits can carry
has the identically-zero `emitted` method (IEEE model). -/
def EmissionFreeF (world : HittableF) : Prop :=
  ∀ (ray : RayF) (tmin tmax : F32) (hit : HitRecordF),
    world.hit ray tmin tmax = some hit →
    ∀ (r : RayF) (g : HitGeomF), hit.material.emitted r g = VecF.zero

/-- An emission-free world whose scatter data keep the IEEE evaluation away
from special values: every material a hit can carry emits zero, returns
finite scattering densities, finite attenuations, and — for diffuse
records — builds mixture densities with `light_shape` that are finite and
nonzero in every direction. -/
def EmissionFreeNonDegenerate (world light_shape : HittableF) : Prop :=
  ∀ (ray : RayF) (tmin tmax : F32) (hit : HitRecordF),
    world.hit ray tmin tmax = some hit →
    (∀ (r : RayF) (g : HitGeomF), hit.material.emitted r g = VecF.zero) ∧
    (∀ (r : RayF) (g : HitGeomF) (sc : RayF), ∃ q : ℚ,
      hit.material.scattering_pdf r g sc = F32.fin q) ∧
    (∀ (r : RayF) (g : HitGeomF) (rng : RNG) (sray : RayF) (att : VecF)
      (rng1 : RNG),
      hit.material.scatter r g rng =
        (some (ScatterRecordF.Specular sray att), rng1) →
      ∃ qa qb qc : ℚ, att = ⟨F32.fin qa, F32.fin qb, F32.fin qc⟩) ∧
    (∀ (r : RayF) (g : HitGeomF) (rng : RNG) (pdf : PDFF) (att : VecF)
      (rng1 : RNG),
      hit.material.scatter r g rng =
        (some (ScatterRecordF.Scatter pdf att), rng1) →
      (∃ qa qb qc : ℚ, att = ⟨F32.fin qa, F32.fin qb, F32.fin qc⟩) ∧
      ∀ d : VecF, ∃ qv : ℚ, qv ≠ 0 ∧
        (PDFF.mixture (PDFF.hittable light_shape g.p) pdf).value d =
          F32.fin qv)

/-- Projection of a scatter result onto the specular ray's direction
(decidable image of a `ScatterRecord`, whose `Scatter` variant holds
functions). -/
def specDir : Option ScatterRecord → Option Vec3
  | some (ScatterRecord.Specular r _) => some r.direction
  | _ => none

/-! Concrete instances used to witness the theorems below. -/

def testRNG : RNG := fun _ => 0

def testPDF : PDF := ⟨fun g => (⟨0, 1, 0⟩, g), fun _ => 1 / 2⟩

def testLight : Hittable :=
  ⟨fun _ _ _ => none, fun _ _ => 1 / 4, fun _ g => (⟨0, 1, 0⟩, g)⟩

def testGeom : HitGeom := ⟨1, ⟨0, 0, 0⟩, ⟨0, 1, 0⟩, 0, 0⟩

def testMaterial : Material :=
  ⟨fun _ _ rng => (some (ScatterRecord.Scatter testPDF ⟨1/2, 1/2, 1/2⟩), rng),
   fun _ _ _ => 1 / 3, fun _ _ => ⟨1, 2, 3⟩⟩

def testHit : HitRecord := ⟨testGeom, testMaterial⟩

def testWorld : Hittable :=
  ⟨fun _ _ _ => some testHit, fun _ _ => 0, fun _ g => (⟨0, 0, 1⟩, g)⟩

def testRay : Ray := ⟨⟨0, 0, 0⟩, ⟨0, 0, 1⟩, 5⟩

def specRay : Ray := ⟨⟨0, 0, 0⟩, ⟨1, 0, 0⟩, 7⟩

def specMaterial : Material :=
  ⟨fun _ _ rng => (some (ScatterRecord.Specular specRay ⟨1/4, 1/4, 1/4⟩), rng),
   fun _ _ _ => 1, fun _ _ => ⟨9, 9, 9⟩⟩

def specHit : HitRecord := ⟨testGeom, specMaterial⟩

def specWorld : Hittable :=
  ⟨fun _ _ _ => some specHit, fun _ _ => 0, fun _ g => (⟨0, 0, 1⟩, g)⟩

/-- A diffuse pdf whose density is identically zero (e.g. every sampled
direction falls below the hemisphere), sampling direction `(0,1,0)`. -/
def nanPDF : PDFF :=
  ⟨fun g => (⟨F32.fin 0, F32.fin 1, F32.fin 0⟩, g), fun _ => F32.fin 0⟩

/-- A light shape seen under zero solid-angle density from everywhere. -/
def nanLight : HittableF :=
  ⟨fun _ _ _ => none, fun _ _ => F32.fin 0,
   fun _ g => (⟨F32.fin 0, F32.fin 1, F32.fin 0⟩, g)⟩

/-- A non-emitting diffuse material whose pdf has zero density. -/
def nanMaterial : MaterialF :=
  ⟨fun _ _ rng =>
    (some (ScatterRecordF.Scatter nanPDF
      ⟨F32.fin (1/2), F32.fin (1/2), F32.fin (1/2)⟩), rng),
   fun _ _ _ => F32.fin (1/3), fun _ _ => VecF.zero⟩

def nanGeom : HitGeomF :=
  ⟨F32.fin 1, VecF.zero, ⟨F32.fin 0, F32.fin 1, F32.fin 0⟩, F32.fin 0,
   F32.fin 0⟩

def nanHit : HitRecordF := ⟨nanGeom, nanMaterial⟩

/-- A world hit only by rays in direction `(0,0,1)` — the scattered ray
`(0,1,0)` escapes, so the recursion stops after one bounce. -/
def nanWorld : HittableF :=
  ⟨fun r _ _ =>
    if r.direction = (⟨F32.fin 0, F32.fin 0, F32.fin 1⟩ : VecF)
    then some nanHit else none,
   fun _ _ => F32.fin 0,
   fun _ g => (⟨F32.fin 0, F32.fin 1, F32.fin 0⟩, g)⟩

def nanRay : RayF :=
  ⟨VecF.zero, ⟨F32.fin 0, F32.fin 0, F32.fin 1⟩, F32.fin 0⟩

/-- Like `nanPDF` but with the nonzero density `1/4`. -/
def goodPDF : PDFF :=
  ⟨fun g => (⟨F32.fin 0, F32.fin 1, F32.fin 0⟩, g), fun _ => F32.fin (1/4)⟩

/-- Like `nanLight` but with the nonzero density `1/4`. -/
def goodLight : HittableF :=
  ⟨fun _ _ _ => none, fun _ _ => F32.fin (1/4),
   fun _ g => (⟨F32.fin 0, F32.fin 1, F32.fin 0⟩, g)⟩

/-- A non-emitting diffuse material with finite data and nonzero density. -/
def goodMaterial : MaterialF :=
  ⟨fun _ _ rng =>
    (some (ScatterRecordF.Scatter goodPDF
      ⟨F32.fin (1/2), F32.fin (1/2), F32.fin (1/2)⟩), rng),
   fun _ _ _ => F32.fin (1/3), fun _ _ => VecF.zero⟩

def goodHit : HitRecordF := ⟨nanGeom, goodMaterial⟩

def goodWorld : HittableF :=
  ⟨fun _ _ _ => some goodHit, fun _ _ => F32.fin (1/4),
   fun _ g => (⟨F32.fin 0, F32.fin 1, F32.fin 0⟩, g)⟩

/-- An exact square-root table for the concrete dielectric inputs below
(all their radicands are perfect rational squares or irrelevant). -/
def sqrtTable : ℚ → ℚ :=
  fun q => if q = 25 then 5 else if q = 16 / 25 then 4 / 5
    else if q = 2 then 3 / 2 else 1

/-- A ray at 60°-ish incidence onto the `y = 0` plane, with rational norm 5. -/
def cexRay : Ray := ⟨⟨0, 0, 0⟩, ⟨3, -4, 0⟩, 2⟩

/-- A grazing ray producing a negative refraction discriminant at η = 2. -/
def tirRay : Ray := ⟨⟨0, 0, 0⟩, ⟨1, -1, 0⟩, 3⟩

/-- One-step unfolding of `color` on a miss: the background is zero. -/
theorem color_miss (world light_shape : Hittable) (ray : Ray) (depth : ℤ)
    (rng : RNG) (hmiss : world.hit ray (1 / 1000) F32_MAX = none) :
    color world light_shape ray depth rng = Vec3.zero := by
  rw [color, hmiss]

/-- One-step unfolding of `color` at or above the depth cap. -/
theorem color_cap (world light_shape : Hittable) (ray : Ray) (depth : ℤ)
    (rng : RNG) (hit : HitRecord)
    (hhit : world.hit ray (1 / 1000) F32_MAX = some hit)
    (hd : MAX_DEPTH ≤ depth) :
    color world light_shape ray depth rng =
      hit.material.emitted ray hit.geom := by
  rw [color, hhit]
  simp only [dif_neg (not_lt.mpr hd)]

/-- One-step unfolding of `color` when the material does not scatter. -/
theorem color_noscatter (world light_shape : Hittable) (ray : Ray) (depth : ℤ)
    (rng rng1 : RNG) (hit : HitRecord)
    (hhit : world.hit ray (1 / 1000) F32_MAX = some hit)
    (hd : depth < MAX_DEPTH)
    (hsc : hit.material.scatter ray hit.geom rng = (none, rng1)) :
    color world light_shape ray depth rng =
      hit.material.emitted ray hit.geom := by
  rw [color, hhit]
  simp only [hd, dif_pos, hsc]

/-- One-step unfolding of `color` on a specular scatter. -/
theorem color_specular (world light_shape : Hittable) (ray : Ray) (depth : ℤ)
    (rng rng1 : RNG) (hit : HitRecord) (specular_ray : Ray) (attenuation : Vec3)
    (hhit : world.hit ray (1 / 1000) F32_MAX = some hit)
    (hd : depth < MAX_DEPTH)
    (hsc : hit.material.scatter ray hit.geom rng =
      (some (ScatterRecord.Specular specular_ray attenuation), rng1)) :
    color world light_shape ray depth rng =
      Vec3.cmul attenuation
        (color world light_shape specular_ray (depth + 1) rng1) := by
  rw [color, hhit]
  simp only [hd, dif_pos, hsc]

/-- One-step unfolding of `color` on a pdf scatter: the MIS estimate. -/
theorem color_scatter (world light_shape : Hittable) (ray : Ray) (depth : ℤ)
    (rng rng1 : RNG) (hit : HitRecord) (pdf : PDF) (attenuation : Vec3)
    (hhit : world.hit ray (1 / 1000) F32_MAX = some hit)
    (hd : depth < MAX_DEPTH)
    (hsc : hit.material.scatter ray hit.geom rng =
      (some (ScatterRecord.Scatter pdf attenuation), rng1)) :
    color world light_shape ray depth rng =
      (let pdf_fun := PDF.mixture (PDF.hittable light_shape hit.geom.p) pdf
       let gen := pdf_fun.generate rng1
       let scattered := Ray.mk hit.geom.p gen.1 ray.time
       Vec3.add (hit.material.emitted ray hit.geom)
         (Vec3.divs
           (Vec3.cmul attenuation
             (Vec3.smul (hit.material.scattering_pdf ray hit.geom scattered)
               (color world light_shape scattered (depth + 1) gen.2)))
           (pdf_fun.value scattered.direction))) := by
  rw [color, hhit]
  simp only [hd, dif_pos, hsc]

/-- One-step unfolding of `colorF` on a miss: the background is zero. -/
theorem colorF_miss (world light_shape : HittableF) (ray : RayF) (depth : ℤ)
    (rng : RNG)
    (hmiss : world.hit ray (F32.fin (1 / 1000)) (F32.fin F32_MAX) = none) :
    colorF world light_shape ray depth rng = VecF.zero := by
  rw [colorF, hmiss]

/-- One-step unfolding of `colorF` at or above the depth cap. -/
theorem colorF_cap (world light_shape : HittableF) (ray : RayF) (depth : ℤ)
    (rng : RNG) (hit : HitRecordF)
    (hhit : world.hit ray (F32.fin (1 / 1000)) (F32.fin F32_MAX) = some hit)
    (hd : MAX_DEPTH ≤ depth) :
    colorF world light_shape ray depth rng =
      hit.material.emitted ray hit.geom := by
  rw [colorF, hhit]
  simp only [dif_neg (not_lt.mpr hd)]

/-- One-step unfolding of `colorF` when the material does not scatter. -/
theorem colorF_noscatter (world light_shape : HittableF) (ray : RayF)
    (depth : ℤ) (rng rng1 : RNG) (hit : HitRecordF)
    (hhit : world.hit ray (F32.fin (1 / 1000)) (F32.fin F32_MAX) = some hit)
    (hd : depth < MAX_DEPTH)
    (hsc : hit.material.scatter ray hit.geom rng = (none, rng1)) :
    colorF world light_shape ray depth rng =
      hit.material.emitted ray hit.geom := by
  rw [colorF, hhit]
  simp only [hd, dif_pos, hsc]

/-- One-step unfolding of `colorF` on a specular scatter. -/
theorem colorF_specular (world light_shape : HittableF) (ray : RayF)
    (depth : ℤ) (rng rng1 : RNG) (hit : HitRecordF) (specular_ray : RayF)
    (attenuation : VecF)
    (hhit : world.hit ray (F32.fin (1 / 1000)) (F32.fin F32_MAX) = some hit)
    (hd : depth < MAX_DEPTH)
    (hsc : hit.material.scatter ray hit.geom rng =
      (some (ScatterRecordF.Specular specular_ray attenuation), rng1)) :
    colorF world light_shape ray depth rng =
      VecF.cmul attenuation
        (colorF world light_shape specular_ray (depth + 1) rng1) := by
  rw [colorF, hhit]
  simp only [hd, dif_pos, hsc]

/-- One-step unfolding of `colorF` on a pdf scatter: the MIS estimate under
IEEE semantics. -/
theorem colorF_scatter (world light_shape : HittableF) (ray : RayF)
    (depth : ℤ) (rng rng1 : RNG) (hit : HitRecordF) (pdf : PDFF)
    (attenuation : VecF)
    (hhit : world.hit ray (F32.fin (1 / 1000)) (F32.fin F32_MAX) = some hit)
    (hd : depth < MAX_DEPTH)
    (hsc : hit.material.scatter ray hit.geom rng =
      (some (ScatterRecordF.Scatter pdf attenuation), rng1)) :
    colorF world light_shape ray depth rng =
      (let pdf_fun := PDFF.mixture (PDFF.hittable light_shape hit.geom.p) pdf
       let gen := pdf_fun.generate rng1
       let scattered := RayF.mk hit.geom.p gen.1 ray.time
       VecF.add (hit.material.emitted ray hit.geom)
         (VecF.divs
           (VecF.cmul attenuation
             (VecF.smul (hit.material.scattering_pdf ray hit.geom scattered)
               (colorF world light_shape scattered (depth + 1) gen.2)))
           (pdf_fun.value scattered.direction))) := by
  rw [colorF, hhit]
  simp only [hd, dif_pos, hsc]

/-- `color` agrees with its fuel-indexed restatement at fuel
`(MAX_DEPTH - depth).toNat`: the recursion of `color` is bounded by the
depth counter. -/
theorem color_eq_colorFuel (world light_shape : Hittable) :
    ∀ (n : ℕ) (ray : Ray) (depth : ℤ) (rng : RNG),
      (MAX_DEPTH - depth).toNat = n →
      color world light_shape ray depth rng =
        colorFuel world light_shape n ray depth rng := by
  intro n
  induction n with
  | zero =>
    intro ray depth rng hn
    have hd : MAX_DEPTH ≤ depth := by
      show (1000 : ℤ) ≤ depth
      simp only [MAX_DEPTH] at hn
      omega
    cases hh : world.hit ray (1 / 1000) F32_MAX with
    | some hit =>
      rw [color_cap world light_shape ray depth rng hit hh hd]
      simp only [colorFuel, hh]
    | none =>
      rw [color_miss world light_shape ray depth rng hh]
      simp only [colorFuel, hh]
  | succ n ih =>
    intro ray depth rng hn
    have hd : depth < MAX_DEPTH := by
      show depth < (1000 : ℤ)
      simp only [MAX_DEPTH] at hn
      omega
    have hn2 : (MAX_DEPTH - (depth + 1)).toNat = n := by
      simp only [MAX_DEPTH] at hn ⊢
      omega
    cases hh : world.hit ray (1 / 1000) F32_MAX with
    | none =>
      rw [color_miss world light_shape ray depth rng hh]
      simp only [colorFuel, hh]
    | some hit =>
      rcases hs : hit.material.scatter ray hit.geom rng with ⟨sc, rng1⟩
      cases sc with
      | none =>
        rw [color_noscatter world light_shape ray depth rng rng1 hit hh hd hs]
        simp only [colorFuel, hh, if_pos hd, hs]
      | some sr =>
        cases sr with
        | Specular sray att =>
          rw [color_specular world light_shape ray depth rng rng1 hit sray att
            hh hd hs]
          simp only [colorFuel, hh, if_pos hd, hs]
          rw [ih sray (depth + 1) rng1 hn2]
        | Scatter pdf att =>
          rw [color_scatter world light_shape ray depth rng rng1 hit pdf att
            hh hd hs]
          simp only [colorFuel, hh, if_pos hd, hs]
          rw [ih _ (depth + 1) _ hn2]

/-- C1: on a `Scatter{pdf, attenuation}` record below the depth cap, `color`
builds the mixture of the hittable PDF (targeting the light shapes, anchored
at the hit point) and the material's own pdf, samples one outgoing ray from
that mixture at the hit point preserving the incoming ray's time, and
returns `emitted + attenuation ⊙ (scattering_pdf · color(scattered,
depth+1)) / pdf_val` with `pdf_val` the mixture's density at the sampled
direction and `scattering_pdf` the material's own density there. -/
theorem c1_scatter_mis_estimate (world light_shape : Hittable) (ray : Ray)
    (depth : ℤ) (rng rng1 : RNG) (hit : HitRecord) (pdf : PDF)
    (attenuation : Vec3)
    (hhit : world.hit ray (1 / 1000) F32_MAX = some hit)
    (hd : depth < MAX_DEPTH)
    (hsc : hit.material.scatter ray hit.geom rng =
      (some (ScatterRecord.Scatter pdf attenuation), rng1)) :
    (Ray.mk hit.geom.p
        ((PDF.mixture (PDF.hittable light_shape hit.geom.p) pdf).generate
          rng1).1 ray.time).origin = hit.geom.p ∧
    (Ray.mk hit.geom.p
        ((PDF.mixture (PDF.hittable light_shape hit.geom.p) pdf).generate
          rng1).1 ray.time).time = ray.time ∧
    color world light_shape ray depth rng =
      Vec3.add (hit.material.emitted ray hit.geom)
        (Vec3.divs
          (Vec3.cmul attenuation
            (Vec3.smul
              (hit.material.scattering_pdf ray hit.geom
                (Ray.mk hit.geom.p
                  ((PDF.mixture (PDF.hittable light_shape hit.geom.p)
                    pdf).generate rng1).1 ray.time))
              (color world light_shape
                (Ray.mk hit.geom.p
                  ((PDF.mixture (PDF.hittable light_shape hit.geom.p)
                    pdf).generate rng1).1 ray.time)
                (depth + 1)
                ((PDF.mixture (PDF.hittable light_shape hit.geom.p)
                  pdf).generate rng1).2)))
          ((PDF.mixture (PDF.hittable light_shape hit.geom.p) pdf).value
            (Ray.mk hit.geom.p
              ((PDF.mixture (PDF.hittable light_shape hit.geom.p)
                pdf).generate rng1).1 ray.time).direction)) :=
  ⟨rfl, rfl,
    color_scatter world light_shape ray depth rng rng1 hit pdf attenuation
      hhit hd hsc⟩

theorem c1_scatter_mis_estimate_witness :
    (testWorld.hit testRay (1 / 1000) F32_MAX = some testHit) ∧
    ((0 : ℤ) < MAX_DEPTH) ∧
    (testHit.material.scatter testRay testHit.geom testRNG =
      (some (ScatterRecord.Scatter testPDF ⟨1/2, 1/2, 1/2⟩), testRNG)) ∧
    color testWorld testLight testRay 0 testRNG =
      Vec3.add (testHit.material.emitted testRay testHit.geom)
        (Vec3.divs
          (Vec3.cmul ⟨1/2, 1/2, 1/2⟩
            (Vec3.smul
              (testHit.material.scattering_pdf testRay testHit.geom
                (Ray.mk testHit.geom.p
                  ((PDF.mixture (PDF.hittable testLight testHit.geom.p)
                    testPDF).generate testRNG).1 testRay.time))
              (color testWorld testLight
                (Ray.mk testHit.geom.p
                  ((PDF.mixture (PDF.hittable testLight testHit.geom.p)
                    testPDF).generate testRNG).1 testRay.time)
                1
                ((PDF.mixture (PDF.hittable testLight testHit.geom.p)
                  testPDF).generate testRNG).2)))
          ((PDF.mixture (PDF.hittable testLight testHit.geom.p)
            testPDF).value
            (Ray.mk testHit.geom.p
              ((PDF.mixture (PDF.hittable testLight testHit.geom.p)
                testPDF).generate testRNG).1 testRay.time).direction)) :=
  ⟨rfl, by decide, rfl,
    (c1_scatter_mis_estimate testWorld testLight testRay 0 testRNG testRNG
      testHit testPDF ⟨1/2, 1/2, 1/2⟩ rfl (by decide) rfl).2.2⟩

/-- Under the IEEE model, the Scatter-branch component with a zero mixture
density is never finite (0/0 is NaN, x/0 is ±∞, and adding a finite emitted
term keeps the special value). -/
theorem scatterComponentF_pdfzero (e a sp i : ℚ) :
    F32.isFinite
      (scatterComponentF (F32.fin e) (F32.fin a) (F32.fin sp) (F32.fin i)
        (F32.fin 0)) = false := by
  by_cases h0 : a * (sp * i) = 0
  · simp [scatterComponentF, F32.mul, F32.div, F32.add, F32.isFinite, h0]
  · by_cases h1 : 0 < a * (sp * i)
    · simp [scatterComponentF, F32.mul, F32.div, F32.add, F32.isFinite, h0,
        h1]
    · simp [scatterComponentF, F32.mul, F32.div, F32.add, F32.isFinite, h0,
        h1]

/-- C2: in the Scatter branch the division by `pdf_val` is unconditional —
the same expression is returned with no guard for every value of the mixture
density, zero included — and under IEEE `f32` semantics a zero `pdf_val`
makes every color component of that expression non-finite (division by zero
to ±∞, or 0/0 to NaN), never an error or a skipped contribution. -/
theorem c2_division_unguarded (world light_shape : Hittable) (ray : Ray)
    (depth : ℤ) (rng rng1 : RNG) (hit : HitRecord) (pdf : PDF)
    (attenuation : Vec3)
    (hhit : world.hit ray (1 / 1000) F32_MAX = some hit)
    (hd : depth < MAX_DEPTH)
    (hsc : hit.material.scatter ray hit.geom rng =
      (some (ScatterRecord.Scatter pdf attenuation), rng1)) :
    (∀ _hzero :
        (PDF.mixture (PDF.hittable light_shape hit.geom.p) pdf).value
          (Ray.mk hit.geom.p
            ((PDF.mixture (PDF.hittable light_shape hit.geom.p)
              pdf).generate rng1).1 ray.time).direction = 0,
      color world light_shape ray depth rng =
        Vec3.add (hit.material.emitted ray hit.geom)
          (Vec3.divs
            (Vec3.cmul attenuation
              (Vec3.smul
                (hit.material.scattering_pdf ray hit.geom
                  (Ray.mk hit.geom.p
                    ((PDF.mixture (PDF.hittable light_shape hit.geom.p)
                      pdf).generate rng1).1 ray.time))
                (color world light_shape
                  (Ray.mk hit.geom.p
                    ((PDF.mixture (PDF.hittable light_shape hit.geom.p)
                      pdf).generate rng1).1 ray.time)
                  (depth + 1)
                  ((PDF.mixture (PDF.hittable light_shape hit.geom.p)
                    pdf).generate rng1).2)))
            0)) ∧
    ∀ e a sp i : ℚ,
      F32.isFinite
        (scatterComponentF (F32.fin e) (F32.fin a) (F32.fin sp) (F32.fin i)
          (F32.fin 0)) = false := by
  constructor
  · intro hzero
    have h := color_scatter world light_shape ray depth rng rng1 hit pdf
      attenuation hhit hd hsc
    rw [h]
    simp only [hzero]
  · exact fun e a sp i => scatterComponentF_pdfzero e a sp i

theorem c2_division_unguarded_witness :
    (testWorld.hit testRay (1 / 1000) F32_MAX = some testHit) ∧
    ((0 : ℤ) < MAX_DEPTH) ∧
    F32.isFinite
      (scatterComponentF (F32.fin 2) (F32.fin (1/2)) (F32.fin (1/3))
        (F32.fin 4) (F32.fin 0)) = false :=
  ⟨rfl, by decide,
    (c2_division_unguarded testWorld testLight testRay 0 testRNG testRNG
      testHit testPDF ⟨1/2, 1/2, 1/2⟩ rfl (by decide) rfl).2 2 (1/2) (1/3) 4⟩

/-- C3: the recursion of `color` is bounded by the explicit depth counter:
once `depth` reaches `MAX_DEPTH` a hit returns only the locally emitted
radiance, `color` coincides with the structurally fuel-bounded `colorFuel`
at fuel `MAX_DEPTH - depth`, and for nonnegative starting depths that fuel
never exceeds 1000 — so the recursion nesting is capped. -/
theorem c3_depth_capped (world light_shape : Hittable) (ray : Ray)
    (depth : ℤ) (rng : RNG) :
    (∀ hit : HitRecord,
      world.hit ray (1 / 1000) F32_MAX = some hit →
      MAX_DEPTH ≤ depth →
      color world light_shape ray depth rng =
        hit.material.emitted ray hit.geom) ∧
    color world light_shape ray depth rng =
      colorFuel world light_shape (MAX_DEPTH - depth).toNat ray depth rng ∧
    (0 ≤ depth → (MAX_DEPTH - depth).toNat ≤ 1000) := by
  refine ⟨fun hit hh hd => color_cap world light_shape ray depth rng hit hh hd,
    color_eq_colorFuel world light_shape _ ray depth rng rfl, fun h0 => ?_⟩
  simp only [MAX_DEPTH]
  omega

theorem c3_depth_capped_witness :
    (testWorld.hit testRay (1 / 1000) F32_MAX = some testHit) ∧
    (MAX_DEPTH ≤ (1000 : ℤ)) ∧
    color testWorld testLight testRay 1000 testRNG =
      testHit.material.emitted testRay testHit.geom ∧
    ((0 : ℤ) ≤ 1000 → (MAX_DEPTH - 1000).toNat ≤ 1000) :=
  ⟨rfl, by decide,
    (c3_depth_capped testWorld testLight testRay 1000 testRNG).1 testHit rfl
      (by decide),
    (c3_depth_capped testWorld testLight testRay 1000 testRNG).2.2⟩

/-- C4 counterexample: an emission-free scene does NOT render exactly zero
under the program's IEEE `f32` semantics.  In the emission-free `nanWorld`
(every emitted value is the zero color), the one scattered sample meets a
zero mixture density, the Scatter branch divides the zero numerator by the
zero density (0/0 = NaN), and `colorF` returns `(NaN, NaN, NaN)` — not the
zero vector. -/
theorem c4_counterexample :
    EmissionFreeF nanWorld ∧
    colorF nanWorld nanLight nanRay 0 testRNG =
      ⟨F32.nan, F32.nan, F32.nan⟩ ∧
    (⟨F32.nan, F32.nan, F32.nan⟩ : VecF) ≠ VecF.zero := by
  refine ⟨?_, ?_, ?_⟩
  · intro ray tmin tmax hit hh r g
    by_cases hc : ray.direction = (⟨F32.fin 0, F32.fin 0, F32.fin 1⟩ : VecF)
    · simp only [nanWorld, if_pos hc] at hh
      injection hh with h
      rw [← h]
      rfl
    · simp only [nanWorld, if_neg hc] at hh
      exact Option.noConfusion hh
  · have hne : (⟨F32.fin 0, F32.fin 1, F32.fin 0⟩ : VecF) ≠
        ⟨F32.fin 0, F32.fin 0, F32.fin 1⟩ := by
      intro hc
      injection hc with hx hy hz
      injection hy with h1
      exact one_ne_zero h1
    have hhit : nanWorld.hit nanRay (F32.fin (1 / 1000)) (F32.fin F32_MAX) =
        some nanHit := by
      show (if nanRay.direction = (⟨F32.fin 0, F32.fin 0, F32.fin 1⟩ : VecF)
        then some nanHit else none) = some nanHit
      rw [if_pos (show nanRay.direction =
        (⟨F32.fin 0, F32.fin 0, F32.fin 1⟩ : VecF) from rfl)]
    have hgen : (PDFF.mixture (PDFF.hittable nanLight nanHit.geom.p)
        nanPDF).generate testRNG =
        (⟨F32.fin 0, F32.fin 1, F32.fin 0⟩, fun n => testRNG (n + 1)) := by
      simp only [PDFF.mixture, PDFF.hittable, nanLight, nanPDF, RNG.next]
      rw [ite_self]
    have hmiss : nanWorld.hit
        (RayF.mk nanHit.geom.p ⟨F32.fin 0, F32.fin 1, F32.fin 0⟩ nanRay.time)
        (F32.fin (1 / 1000)) (F32.fin F32_MAX) = none := by
      show (if (RayF.mk nanHit.geom.p ⟨F32.fin 0, F32.fin 1, F32.fin 0⟩
          nanRay.time).direction = (⟨F32.fin 0, F32.fin 0, F32.fin 1⟩ : VecF)
        then some nanHit else none) = none
      rw [if_neg hne]
    rw [colorF_scatter nanWorld nanLight nanRay 0 testRNG testRNG nanHit
      nanPDF ⟨F32.fin (1/2), F32.fin (1/2), F32.fin (1/2)⟩ hhit (by decide)
      rfl]
    simp only [hgen]
    rw [colorF_miss nanWorld nanLight
      (RayF.mk nanHit.geom.p ⟨F32.fin 0, F32.fin 1, F32.fin 0⟩ nanRay.time)
      (0 + 1) (fun n => testRNG (n + 1)) hmiss]
    norm_num [nanHit, nanMaterial, nanGeom, nanPDF, nanLight, PDFF.mixture,
      PDFF.hittable, VecF.add, VecF.divs, VecF.cmul, VecF.smul, VecF.zero,
      F32.add, F32.mul, F32.div]
  · intro hc
    injection hc with hx hy hz
    exact F32.noConfusion hx

/-- C4 (amended): in an emission-free scene whose scatter data stay away
from IEEE special values — finite attenuations, finite scattering
densities, and every mixture density finite and nonzero — the integrator
under IEEE `f32` semantics returns exactly the zero vector for every ray,
depth, and random stream: misses return the zero background, terminal hits
return the zero emitted value, and both recursive branches only scale or
add radiance that is itself zero.  (When a sampled mixture density is zero,
the 0/0 division instead makes the affected components NaN, as the
counterexample shows.) -/
theorem c4_emissionFree_black_nondegenerate (world light_shape : HittableF)
    (hw : EmissionFreeNonDegenerate world light_shape) (ray : RayF)
    (depth : ℤ) (rng : RNG) :
    colorF world light_shape ray depth rng = VecF.zero := by
  suffices h : ∀ (n : ℕ) (ray : RayF) (depth : ℤ) (rng : RNG),
      (MAX_DEPTH - depth).toNat = n →
      colorF world light_shape ray depth rng = VecF.zero from
    h _ ray depth rng rfl
  intro n
  induction n with
  | zero =>
    intro ray depth rng hn
    have hd : MAX_DEPTH ≤ depth := by
      show (1000 : ℤ) ≤ depth
      simp only [MAX_DEPTH] at hn
      omega
    cases hh : world.hit ray (F32.fin (1 / 1000)) (F32.fin F32_MAX) with
    | some hit =>
      rw [colorF_cap world light_shape ray depth rng hit hh hd]
      exact (hw ray _ _ hit hh).1 ray hit.geom
    | none => exact colorF_miss world light_shape ray depth rng hh
  | succ n ih =>
    intro ray depth rng hn
    have hd : depth < MAX_DEPTH := by
      show depth < (1000 : ℤ)
      simp only [MAX_DEPTH] at hn
      omega
    have hn2 : (MAX_DEPTH - (depth + 1)).toNat = n := by
      simp only [MAX_DEPTH] at hn ⊢
      omega
    cases hh : world.hit ray (F32.fin (1 / 1000)) (F32.fin F32_MAX) with
    | none => exact colorF_miss world light_shape ray depth rng hh
    | some hit =>
      obtain ⟨hemit, hspdf, hspec, hscat⟩ := hw ray _ _ hit hh
      rcases hs : hit.material.scatter ray hit.geom rng with ⟨sc, rng1⟩
      cases sc with
      | none =>
        rw [colorF_noscatter world light_shape ray depth rng rng1 hit hh hd
          hs]
        exact hemit ray hit.geom
      | some sr =>
        cases sr with
        | Specular sray att =>
          obtain ⟨qa, qb, qc, hatt⟩ := hspec ray hit.geom rng sray att rng1 hs
          rw [colorF_specular world light_shape ray depth rng rng1 hit sray
            att hh hd hs, ih sray (depth + 1) rng1 hn2, hatt]
          simp [VecF.cmul, VecF.zero, F32.mul]
        | Scatter pdf att =>
          obtain ⟨⟨qa, qb, qc, hatt⟩, hmix⟩ :=
            hscat ray hit.geom rng pdf att rng1 hs
          obtain ⟨qv, hqv, hval⟩ := hmix
            ((PDFF.mixture (PDFF.hittable light_shape hit.geom.p)
              pdf).generate rng1).1
          obtain ⟨qs, hqs⟩ := hspdf ray hit.geom
            (RayF.mk hit.geom.p
              ((PDFF.mixture (PDFF.hittable light_shape hit.geom.p)
                pdf).generate rng1).1 ray.time)
          rw [colorF_scatter world light_shape ray depth rng rng1 hit pdf att
            hh hd hs]
          simp only [hemit ray hit.geom, hatt, hqs, hval,
            ih _ (depth + 1) _ hn2]
          simp [VecF.add, VecF.divs, VecF.cmul, VecF.smul, VecF.zero,
            F32.add, F32.mul, F32.div, hqv]

theorem c4_emissionFree_black_nondegenerate_witness :
    EmissionFreeNonDegenerate goodWorld goodLight ∧
    colorF goodWorld goodLight nanRay 0 testRNG = VecF.zero := by
  have hval : ∀ (g : HitGeomF) (d : VecF),
      (PDFF.mixture (PDFF.hittable goodLight g.p) goodPDF).value d =
        F32.fin (1 / 4) := by
    intro g d
    simp only [PDFF.mixture, PDFF.hittable, goodLight, goodPDF, F32.add,
      F32.div]
    norm_num
  have hw : EmissionFreeNonDegenerate goodWorld goodLight := by
    intro ray tmin tmax hit hh
    injection hh with h
    rw [← h]
    refine ⟨fun _ _ => rfl, fun _ _ _ => ⟨1 / 3, rfl⟩, ?_, ?_⟩
    · intro r g rng sray att rng1 hsc
      simp only [goodHit, goodMaterial, Prod.mk.injEq, Option.some.injEq]
        at hsc
      exact absurd hsc.1 (fun hc => ScatterRecordF.noConfusion hc)
    · intro r g rng pdf att rng1 hsc
      simp only [goodHit, goodMaterial, Prod.mk.injEq, Option.some.injEq]
        at hsc
      obtain ⟨h1, _⟩ := hsc
      injection h1 with hpdf hatt
      refine ⟨⟨1 / 2, 1 / 2, 1 / 2, hatt.symm⟩, fun d => ⟨1 / 4, by norm_num,
        ?_⟩⟩
      rw [← hpdf]
      exact hval g d
  exact ⟨hw,
    c4_emissionFree_black_nondegenerate goodWorld goodLight hw nanRay 0
      testRNG⟩

/-- C5: on a `Specular` record below the depth cap, `color` returns the
attenuation multiplied component-wise with the recursive radiance along the
single deterministic specular ray, and the locally emitted radiance is not
added at this level (the result contains no `emitted` summand). -/
theorem c5_specular_branch (world light_shape : Hittable) (ray : Ray)
    (depth : ℤ) (rng rng1 : RNG) (hit : HitRecord) (specular_ray : Ray)
    (attenuation : Vec3)
    (hhit : world.hit ray (1 / 1000) F32_MAX = some hit)
    (hd : depth < MAX_DEPTH)
    (hsc : hit.material.scatter ray hit.geom rng =
      (some (ScatterRecord.Specular specular_ray attenuation), rng1)) :
    color world light_shape ray depth rng =
      Vec3.cmul attenuation
        (color world light_shape specular_ray (depth + 1) rng1) :=
  color_specular world light_shape ray depth rng rng1 hit specular_ray
    attenuation hhit hd hsc

theorem c5_specular_branch_witness :
    (specWorld.hit testRay (1 / 1000) F32_MAX = some specHit) ∧
    ((0 : ℤ) < MAX_DEPTH) ∧
    (specHit.material.scatter testRay specHit.geom testRNG =
      (some (ScatterRecord.Specular specRay ⟨1/4, 1/4, 1/4⟩), testRNG)) ∧
    color specWorld testLight testRay 0 testRNG =
      Vec3.cmul ⟨1/4, 1/4, 1/4⟩ (color specWorld testLight specRay 1 testRNG) :=
  ⟨rfl, by decide, rfl,
    c5_specular_branch specWorld testLight testRay 0 testRNG testRNG specHit
      specRay ⟨1/4, 1/4, 1/4⟩ rfl (by decide) rfl⟩

/-- C6: `DiffuseLight` never scatters — its `scatter` is the trait default
returning `None` for every ray, hit and random stream — and its `emitted`
returns the emission texture's color exactly on the front face
(`normal · direction < 0`) and the zero color otherwise. -/
theorem c6_diffuse_light (emit : Texture) (ray : Ray) (hit : HitGeom)
    (rng : RNG) :
    (DiffuseLight.material emit).scatter ray hit rng = (none, rng) ∧
    (DiffuseLight.material emit).emitted ray hit =
      (if Vec3.dot hit.normal ray.direction < 0 then emit hit.u hit.v hit.p
       else Vec3.zero) :=
  ⟨rfl, rfl⟩

/-- C7: `Dielectric::scatter` is total and specular — for every machine
square root `s`, refractive index, ray, hit and random draw it returns
`Some` of a `Specular` record with attenuation `(1,1,1)` — and whenever
`refract` reports the discriminant not positive (`None`), the specular ray
is the reflection of the incoming direction about the hit normal: invalid
refraction is resolved to reflection, never a failed scatter. -/
theorem c7_dielectric_specular_total (s : ℚ → ℚ) (m : Dielectric) (ray : Ray)
    (hit : HitGeom) (rand : ℚ) :
    (∃ sray : Ray,
      Dielectric.scatter s m ray hit rand =
        some (ScatterRecord.Specular sray ⟨1, 1, 1⟩)) ∧
    (refract s ray.direction
        (if 0 < Vec3.dot ray.direction hit.normal then Vec3.neg hit.normal
         else hit.normal)
        (if 0 < Vec3.dot ray.direction hit.normal then m.ref_idx
         else 1 / m.ref_idx) = none →
      Dielectric.scatter s m ray hit rand =
        some (ScatterRecord.Specular
          (Ray.mk hit.p (reflect ray.direction hit.normal) ray.time)
          ⟨1, 1, 1⟩)) := by
  unfold Dielectric.scatter
  by_cases hdot : 0 < Vec3.dot ray.direction hit.normal
  · simp only [if_pos hdot]
    cases hr : refract s ray.direction (Vec3.neg hit.normal) m.ref_idx with
    | some refracted =>
      refine ⟨?_, fun hnone => by simp [hr] at hnone⟩
      by_cases hs : schlick
          (m.ref_idx * Vec3.dot ray.direction hit.normal /
            s (Vec3.dot ray.direction ray.direction)) m.ref_idx ≤ rand
      · exact ⟨Ray.mk hit.p refracted ray.time, by simp [hr, hs]⟩
      · exact ⟨Ray.mk hit.p (reflect ray.direction hit.normal) ray.time,
          by simp [hr, hs]⟩
    | none =>
      exact ⟨⟨Ray.mk hit.p (reflect ray.direction hit.normal) ray.time,
        by simp [hr]⟩, fun _ => by simp [hr]⟩
  · simp only [if_neg hdot]
    cases hr : refract s ray.direction hit.normal (1 / m.ref_idx) with
    | some refracted =>
      refine ⟨?_, fun hnone => by simp [hr] at hnone⟩
      by_cases hs : schlick
          (-(Vec3.dot ray.direction hit.normal) /
            s (Vec3.dot ray.direction ray.direction)) m.ref_idx ≤ rand
      · exact ⟨Ray.mk hit.p refracted ray.time, by simp [hr, hs]⟩
      · exact ⟨Ray.mk hit.p (reflect ray.direction hit.normal) ray.time,
          by simp [hr, hs]⟩
    | none =>
      exact ⟨⟨Ray.mk hit.p (reflect ray.direction hit.normal) ray.time,
        by simp [hr]⟩, fun _ => by simp [hr]⟩

theorem c7_dielectric_specular_total_witness :
    (refract sqrtTable tirRay.direction
      (if 0 < Vec3.dot tirRay.direction testGeom.normal
       then Vec3.neg testGeom.normal else testGeom.normal)
      (if 0 < Vec3.dot tirRay.direction testGeom.normal
       then (1 / 2 : ℚ) else 1 / (1 / 2)) = none) ∧
    Dielectric.scatter sqrtTable ⟨1 / 2⟩ tirRay testGeom 0 =
      some (ScatterRecord.Specular
        (Ray.mk testGeom.p (reflect tirRay.direction testGeom.normal)
          tirRay.time)
        ⟨1, 1, 1⟩) := by
  have hnone : refract sqrtTable tirRay.direction
      (if 0 < Vec3.dot tirRay.direction testGeom.normal
       then Vec3.neg testGeom.normal else testGeom.normal)
      (if 0 < Vec3.dot tirRay.direction testGeom.normal
       then (1 / 2 : ℚ) else 1 / (1 / 2)) = none := by
    norm_num [refract, Vec3.normalize, Vec3.divs, Vec3.dot, Vec3.sub,
      Vec3.smul, Vec3.neg, sqrtTable, tirRay, testGeom]
  refine ⟨hnone, ?_⟩
  have h2 := (c7_dielectric_specular_total sqrtTable ⟨1 / 2⟩ tirRay testGeom 0).2
  exact h2 hnone

/-- C8 counterexample: a dielectric with `ref_idx = 1` does NOT always
refract.  At 53° incidence (direction `(3,-4,0)`, normal `(0,1,0)`,
`cosine = 4/5`) refraction is geometrically valid and returns direction
`(3/5,-4/5,0)`, yet with the random draw `0 < schlick(4/5,1) = (1/5)^5`
the code takes the reflection branch and returns direction `(3,4,0)`. -/
theorem c8_counterexample :
    specDir (Dielectric.scatter sqrtTable ⟨1⟩ cexRay testGeom 0) =
      some ⟨3, 4, 0⟩ ∧
    refract sqrtTable cexRay.direction testGeom.normal 1 =
      some ⟨3 / 5, -4 / 5, 0⟩ ∧
    (⟨3, 4, 0⟩ : Vec3) ≠ ⟨3 / 5, -4 / 5, 0⟩ := by
  refine ⟨?_, ?_, ?_⟩
  · have hdot : ¬ (0 < Vec3.dot cexRay.direction testGeom.normal) := by
      norm_num [Vec3.dot, cexRay, testGeom]
    have hrefr : refract sqrtTable cexRay.direction testGeom.normal
        (1 / (⟨1⟩ : Dielectric).ref_idx) = some ⟨3 / 5, -4 / 5, 0⟩ := by
      norm_num [refract, Vec3.normalize, Vec3.divs, Vec3.dot, Vec3.sub,
        Vec3.smul, sqrtTable, cexRay, testGeom]
    have hs : ¬ (schlick
        (-(Vec3.dot cexRay.direction testGeom.normal) /
          sqrtTable (Vec3.dot cexRay.direction cexRay.direction))
        (⟨1⟩ : Dielectric).ref_idx ≤ 0) := by
      norm_num [schlick, Vec3.dot, sqrtTable, cexRay, testGeom]
    unfold Dielectric.scatter
    simp only [if_neg hdot]
    rw [hrefr]
    simp only [if_neg hs]
    simp only [specDir, reflect]
    norm_num [Vec3.dot, Vec3.sub, Vec3.smul, cexRay, testGeom]
  · norm_num [refract, Vec3.normalize, Vec3.divs, Vec3.dot, Vec3.sub,
      Vec3.smul, sqrtTable, cexRay, testGeom]
  · intro h
    injection h with hx hy hz
    exact absurd hx (by norm_num)

/-- C8 (amended): for `ref_idx = 1` the Schlick reflectance reduces to
`(1 - cosine)^5` — zero only at normal incidence — so `scatter` returns the
refracted ray exactly on the draws at or above that probability: whenever
refraction is geometrically valid and the draw `rand` satisfies
`schlick(cosine, 1) ≤ rand`, the returned specular ray is the refracted
direction. -/
theorem c8_matched_index_refracts (s : ℚ → ℚ) (ray : Ray) (hit : HitGeom)
    (rand : ℚ) (refracted : Vec3)
    (hr : refract s ray.direction
        (if 0 < Vec3.dot ray.direction hit.normal then Vec3.neg hit.normal
         else hit.normal) 1 = some refracted)
    (hrand : schlick
        (if 0 < Vec3.dot ray.direction hit.normal
         then 1 * Vec3.dot ray.direction hit.normal /
           s (Vec3.dot ray.direction ray.direction)
         else -(Vec3.dot ray.direction hit.normal) /
           s (Vec3.dot ray.direction ray.direction)) 1 ≤ rand) :
    Dielectric.scatter s ⟨1⟩ ray hit rand =
      some (ScatterRecord.Specular (Ray.mk hit.p refracted ray.time)
        ⟨1, 1, 1⟩) ∧
    ∀ c : ℚ, schlick c 1 = (1 - c) ^ 5 := by
  refine ⟨?_, fun c => by norm_num [schlick]⟩
  unfold Dielectric.scatter
  by_cases hdot : 0 < Vec3.dot ray.direction hit.normal
  · simp only [if_pos hdot] at hr hrand ⊢
    rw [hr]
    simp only [if_pos hrand]
  · simp only [if_neg hdot, one_div_one] at hr hrand ⊢
    rw [hr]
    simp only [if_pos hrand]

theorem c8_matched_index_refracts_witness :
    (refract sqrtTable cexRay.direction
      (if 0 < Vec3.dot cexRay.direction testGeom.normal
       then Vec3.neg testGeom.normal else testGeom.normal) 1 =
      some ⟨3 / 5, -4 / 5, 0⟩) ∧
    (schlick
        (if 0 < Vec3.dot cexRay.direction testGeom.normal
         then 1 * Vec3.dot cexRay.direction testGeom.normal /
           sqrtTable (Vec3.dot cexRay.direction cexRay.direction)
         else -(Vec3.dot cexRay.direction testGeom.normal) /
           sqrtTable (Vec3.dot cexRay.direction cexRay.direction)) 1 ≤ 1) ∧
    Dielectric.scatter sqrtTable ⟨1⟩ cexRay testGeom 1 =
      some (ScatterRecord.Specular
        (Ray.mk testGeom.p ⟨3 / 5, -4 / 5, 0⟩ cexRay.time) ⟨1, 1, 1⟩) := by
  have hr : refract sqrtTable cexRay.direction
      (if 0 < Vec3.dot cexRay.direction testGeom.normal
       then Vec3.neg testGeom.normal else testGeom.normal) 1 =
      some ⟨3 / 5, -4 / 5, 0⟩ := by
    norm_num [refract, Vec3.normalize, Vec3.divs, Vec3.dot, Vec3.sub,
      Vec3.smul, Vec3.neg, sqrtTable, cexRay, testGeom]
  have hrand : schlick
      (if 0 < Vec3.dot cexRay.direction testGeom.normal
       then 1 * Vec3.dot cexRay.direction testGeom.normal /
         sqrtTable (Vec3.dot cexRay.direction cexRay.direction)
       else -(Vec3.dot cexRay.direction testGeom.normal) /
         sqrtTable (Vec3.dot cexRay.direction cexRay.direction)) 1 ≤ 1 := by
    norm_num [schlick, Vec3.dot, sqrtTable, cexRay, testGeom]
  exact ⟨hr, hrand,
    (c8_matched_index_refracts sqrtTable cexRay testGeom 1 ⟨3 / 5, -4 / 5, 0⟩
      hr hrand).1⟩

/-- C9 counterexample: `Metal::new` only clamps from above (`if fuzz < 1.0 {
fuzz } else { 1.0 }`); the negative argument `-1` is stored unchanged, so
the stored fuzz does not lie in `[0,1]`. -/
theorem c9_counterexample :
    (Metal.new ⟨1, 1, 1⟩ (-1)).fuzz = -1 ∧
    ¬ (0 ≤ (Metal.new ⟨1, 1, 1⟩ (-1)).fuzz ∧
       (Metal.new ⟨1, 1, 1⟩ (-1)).fuzz ≤ 1) := by
  norm_num [Metal.new]

/-- C9 (amended): the fuzz stored by `Metal::new` is clamped from above
only — it is always at most 1, and it lies in `[0,1]` whenever the fuzz
argument is nonnegative (a negative argument is stored unchanged). -/
theorem c9_fuzz_clamped_above (albedo : Vec3) (fuzz : ℚ) :
    (Metal.new albedo fuzz).fuzz ≤ 1 ∧
    (0 ≤ fuzz →
      0 ≤ (Metal.new albedo fuzz).fuzz ∧ (Metal.new albedo fuzz).fuzz ≤ 1) := by
  unfold Metal.new
  by_cases h : fuzz < 1
  · simp only [if_pos h]
    exact ⟨le_of_lt h, fun h0 => ⟨h0, le_of_lt h⟩⟩
  · simp only [if_neg h]
    exact ⟨le_refl 1, fun _ => ⟨by norm_num, le_refl 1⟩⟩

theorem c9_fuzz_clamped_above_witness :
    ((0 : ℚ) ≤ 1 / 2) ∧
    0 ≤ (Metal.new ⟨1, 1, 1⟩ (1 / 2)).fuzz ∧
    (Metal.new ⟨1, 1, 1⟩ (1 / 2)).fuzz ≤ 1 :=
  ⟨by norm_num, (c9_fuzz_clamped_above ⟨1, 1, 1⟩ (1 / 2)).2 (by norm_num)⟩

/-- The clamp written `x.max(0.0).min(1.0)` in the source equals the spec's
`min(1, max(0, x))` on every IEEE value, NaN included. -/
theorem F32.clamp_comm (x : F32) :
    F32.min (F32.max x (F32.fin 0)) (F32.fin 1) =
      F32.min (F32.fin 1) (F32.max (F32.fin 0) x) := by
  cases x with
  | nan => norm_num [F32.max, F32.min, F32.isNan, F32.lt]
  | inf => norm_num [F32.max, F32.min, F32.isNan, F32.lt]
  | neginf => norm_num [F32.max, F32.min, F32.isNan, F32.lt]
  | fin q =>
    rcases lt_trichotomy q 0 with h | h | h
    · norm_num [F32.max, F32.min, F32.isNan, F32.lt, h, lt_asymm h,
        not_lt.mpr h.le]
    · subst h
      norm_num [F32.max, F32.min, F32.isNan, F32.lt]
    · rcases lt_trichotomy q 1 with h1 | h1 | h1
      · norm_num [F32.max, F32.min, F32.isNan, F32.lt, h, lt_asymm h, h1,
          lt_asymm h1]
      · subst h1
        norm_num [F32.max, F32.min, F32.isNan, F32.lt]
      · norm_num [F32.max, F32.min, F32.isNan, F32.lt, h, lt_asymm h, h1,
          lt_asymm h1]

/-- The saturating `as u8` cast never produces a value above 255. -/
theorem F32.toU8_le_255 (x : F32) : F32.toU8 x ≤ 255 := by
  cases x with
  | nan => simp [F32.toU8]
  | inf => simp [F32.toU8]
  | neginf => simp [F32.toU8]
  | fin q =>
    simp only [F32.toU8]
    split_ifs with h1 h2
    · exact Nat.zero_le 255
    · exact le_refl 255
    · have h3 : ¬ (255 ≤ Rat.floor q) := fun hc =>
        h2 (by exact_mod_cast Rat.le_floor.mp hc)
      omega

/-- C10: at the output boundary, every serialized channel byte equals
`255.99 · min(1, max(0, sqrt(sum / ns)))` cast to `u8` and hence lies in
`[0, 255]`; a NaN channel sum is absorbed to byte 0 (Rust's `f32::max`
discards the NaN in favor of `0.0`) and a `+∞` sum saturates to byte 255 —
non-finite radiance never escapes the image as anything but a black or
saturated channel. -/
theorem c10_output_clamped (c : F32) (ns : ℚ) (hns : 0 < ns) :
    serializeChannel c ns =
      F32.toU8 (F32.mul (F32.fin (25599 / 100))
        (F32.min (F32.fin 1)
          (F32.max (F32.fin 0) (F32.sqrt (F32.div c (F32.fin ns)))))) ∧
    serializeChannel c ns ≤ 255 ∧
    serializeChannel F32.nan ns = 0 ∧
    serializeChannel F32.inf ns = 255 := by
  refine ⟨by rw [serializeChannel, F32.clamp_comm], F32.toU8_le_255 _, ?_, ?_⟩
  · norm_num [serializeChannel, F32.div, F32.sqrt, F32.max, F32.min,
      F32.mul, F32.isNan, F32.lt, F32.toU8]
  · have h1 : ¬ (ns < 0) := not_lt.mpr hns.le
    norm_num [serializeChannel, F32.div, h1, F32.sqrt, F32.max, F32.min,
      F32.mul, F32.isNan, F32.lt, F32.toU8]

theorem c10_output_clamped_witness :
    ((0 : ℚ) < 1000) ∧
    serializeChannel (F32.fin 4000) 1000 =
      F32.toU8 (F32.mul (F32.fin (25599 / 100))
        (F32.min (F32.fin 1)
          (F32.max (F32.fin 0)
            (F32.sqrt (F32.div (F32.fin 4000) (F32.fin 1000)))))) ∧
    serializeChannel (F32.fin 4000) 1000 ≤ 255 ∧
    serializeChannel F32.nan 1000 = 0 ∧
    serializeChannel F32.inf 1000 = 255 :=
  ⟨by norm_num, c10_output_clamped (F32.fin 4000) 1000 (by norm_num)⟩
